import Mathlib

/-!
Shallow embedding of the `pybaseball.datasources` package (source files
`ourlads.py` and `nflverse.py`) together with proofs about the claims of its
natural-language specification.

Modelling conventions:

* Python strings are Lean `String`s; character-level work happens on their
  `List Char` representation.  The regex character classes `\s`, `\d`, `\w`
  are modelled by their ASCII fragments (every string occurring in the
  repository, its tests and its spec is ASCII).
* A pandas data frame is modelled positionally: a list of rows, each row a
  list of cells, a cell being `Option String` with `none` playing the role of
  NaN.  Flattened column names are assumed pairwise distinct (as on the real
  Ourlads pages); pandas' duplicate-label semantics are out of scope.
* Network access, HTML parsing and the filesystem are modelled as explicit
  inputs: the fetched/parsed tables are an `Option (List RawTable)` argument
  (`none` = request failure) and the override file is an `OverrideSrc` value.
* Functions that in Python skip ahead in a string (`re.sub` scanning) are
  written with an explicit fuel argument initialised to the string length,
  which is always sufficient because every step consumes at least one
  character.
-/

set_option autoImplicit false

namespace PyBaseball

/-- ASCII fragment of the Python regex class `\s` (matches `str.strip`'s
whitespace on ASCII input). -/
def isSpaceP (c : Char) : Bool :=
  c = ' ' || c = '\t' || c = '\n' || c = '\r' || c = '\x0b' || c = '\x0c'

/-- ASCII fragment of the Python regex class `\d`. -/
def isDigitP (c : Char) : Bool :=
  '0' ≤ c && c ≤ '9'

/-- ASCII fragment of the Python regex class `\w`. -/
def isWordP (c : Char) : Bool :=
  isDigitP c || ('a' ≤ c && c ≤ 'z') || ('A' ≤ c && c ≤ 'Z') || c = '_'

/-- Python `str.strip()` on a character list. -/
def pstripL (l : List Char) : List Char :=
  ((l.dropWhile isSpaceP).reverse.dropWhile isSpaceP).reverse

/-- Python `str.strip()`. -/
def pstrip (s : String) : String :=
  ⟨pstripL s.data⟩

/-- Python `str.upper()` (ASCII). -/
def pupper (s : String) : String :=
  ⟨s.data.map Char.toUpper⟩

/-- Python `str.lower()` (ASCII). -/
def plowerL (l : List Char) : List Char :=
  l.map Char.toLower

/-- Remainder of a suffix after its leading whitespace run and the following
maximal word-character run: what is left after `\s*` and a greedy `\d+\w*`. -/
def trailRem (t : List Char) : List Char :=
  (t.dropWhile isSpaceP).dropWhile isWordP

/-- Whether `re` matches the pattern `\s*\d+\w*$` starting exactly at the
beginning of the suffix `t`.  Python's `$` matches at the end of the string or
just before a final newline, so the remainder after the greedy run must be
`[]` or `['\n']`. -/
def trailMatch (t : List Char) : Bool :=
  match t.dropWhile isSpaceP with
  | [] => false
  | c :: _ => isDigitP c && (trailRem t == ([] : List Char) || trailRem t == ['\n'])

/-- Model of `re.sub(r"\s*\d+\w*$", "", s)` (ourlads.py line 42): the leftmost
match runs to the end of the string (or to a final newline) and is deleted;
no second match is possible afterwards. -/
def stripTrailingNum : List Char → List Char
  | [] => []
  | c :: cs => if trailMatch (c :: cs) then trailRem (c :: cs) else c :: stripTrailingNum cs

/-- Scan for the `)` closing a lazy `.*?` group; Python's `.` does not match a
newline, so a newline aborts the search.  Returns the characters after `)`. -/
def findClose : List Char → Option (List Char)
  | [] => none
  | c :: cs => if c = ')' then some cs else if c = '\n' then none else findClose cs

/-- Whether `\s*\(.*?\)` matches at the beginning of `t`; if so, return the
remainder of the string after the match. -/
def parenMatch (t : List Char) : Option (List Char) :=
  match t.dropWhile isSpaceP with
  | '(' :: rest => findClose rest
  | _ => none

/-- Fuelled scan for `re.sub(r"\s*\(.*?\)", "", s)`: replace every
non-overlapping match, scanning left to right.  Each successful match consumes
at least two characters, so fuel = string length always suffices. -/
def stripParensF : Nat → List Char → List Char
  | 0, l => l
  | _, [] => []
  | fuel + 1, c :: cs =>
    match parenMatch (c :: cs) with
    | some rest => stripParensF fuel rest
    | none => c :: stripParensF fuel cs

/-- Model of `re.sub(r"\s*\(.*?\)", "", s)` (ourlads.py line 43). -/
def stripParens (l : List Char) : List Char :=
  stripParensF l.length l

/-- Fuelled scan for `re.sub(r"\s{2,}", " ", s)`: a maximal whitespace run of
length at least two is replaced by a single space; single whitespace
characters are kept as they are. -/
def collapseWsF : Nat → List Char → List Char
  | 0, l => l
  | _, [] => []
  | _, [c] => [c]
  | fuel + 1, c :: d :: rest =>
    if isSpaceP c && isSpaceP d then
      ' ' :: collapseWsF fuel ((d :: rest).dropWhile isSpaceP)
    else
      c :: collapseWsF fuel (d :: rest)

/-- Model of `re.sub(r"\s{2,}", " ", s)` (ourlads.py line 49). -/
def collapseWs (l : List Char) : List Char :=
  collapseWsF l.length l

/-- Python `s.split(",", 1)` when a comma is present: the parts before and
after the first comma. -/
def splitFirstComma : List Char → Option (List Char × List Char)
  | [] => none
  | c :: cs =>
    if c = ',' then some ([], cs)
    else
      match splitFirstComma cs with
      | some p => some (c :: p.1, p.2)
      | none => none

/-- Model of `_clean_name` (ourlads.py lines 41-50) on character lists:
delete a trailing jersey-number run, delete parenthetical annotations, trim,
reorder `Last, First` to `First Last`, collapse inner whitespace runs. -/
def cleanNameL (raw : List Char) : List Char :=
  let a := stripTrailingNum raw
  let b := stripParens a
  let c := pstripL b
  let d :=
    match splitFirstComma c with
    | some p => pstripL (pstripL p.2 ++ ' ' :: pstripL p.1)
    | none => c
  collapseWs d

/-- Model of `_clean_name` (ourlads.py lines 41-50). -/
def _clean_name (raw : String) : String :=
  ⟨cleanNameL raw.data⟩

/-- Model of `_map_pos` (ourlads.py lines 53-69).  The slot index is a Python
`int`, hence `Int`. -/
def _map_pos (row_pos : String) (slot_idx : Option Int) : Option String :=
  match slot_idx with
  | none => none
  | some i =>
    let p := pupper row_pos
    if p = "QB" || p = "RB" || p = "FB" || p = "TE" then
      if p = "RB" then some (if i = 1 then "RB1" else "RB2")
      else if p = "TE" then some (if i = 1 then "TE1" else "TE2")
      else some p
    else if p = "WR" || p = "LWR" || p = "RWR" || p = "SWR" || p = "WR-SLOT" || p = "SLOT" then
      if p = "SWR" || p = "WR-SLOT" || p = "SLOT" then
        if i = 1 then some "SLOT" else none
      else if 1 ≤ i && i ≤ 5 then
        (["WR1", "WR2", "WR3", "WR4", "WR5"] : List String).get? (i - 1).toNat
      else none
    else none

/-- Case-insensitive prefix test on character lists. -/
def startsCI (pat l : List Char) : Bool :=
  List.isPrefixOf (plowerL pat) (plowerL l)

/-- Case-insensitive substring test (model of pandas
`str.contains(pat, case=False)` for a literal-alternative pattern part). -/
def containsCI (s : String) (pat : List Char) : Bool :=
  (plowerL s.data).tails.any (fun t => List.isPrefixOf (plowerL pat) t)

/-- Model of `_PLAYER_COLUMN_PATTERN.match`, the anchored regex
`^(?:No\s*)?Player` with `re.IGNORECASE` (ourlads.py line 14): either the name
starts with `Player`, or it starts with `No`, then a whitespace run, then
`Player`. -/
def matchesPlayer (name : String) : Bool :=
  startsCI "Player".data name.data ||
    (startsCI "No".data name.data &&
      startsCI "Player".data ((name.data.drop 2).dropWhile isSpaceP))

/-- A column header of the parsed HTML table: either a flat label or a
multi-level (tuple) label, as distinguished by `isinstance(col, tuple)`. -/
inductive HCol where
  | flat : String → HCol
  | multi : List String → HCol

/-- Model of one step of `_flatten_columns` (ourlads.py lines 25-38): tuples
drop empty, `"nan"` and `Unnamed:` levels and join the rest with one space;
flat labels are stripped. -/
def flattenCol : HCol → String
  | .flat s => pstrip s
  | .multi parts =>
    pstrip (String.intercalate " "
      (parts.filter (fun p =>
        !(pstrip p == "" || pstrip p == "nan") && !(p.startsWith "Unnamed:"))))

/-- The first table parsed out of the response HTML: column headers plus rows
of cells, a `none` cell being NaN. -/
structure RawTable where
  header : List HCol
  rows : List (List (Option String))

/-- The canonical output unit: one row of the four-column starter frame. -/
structure Record where
  team : String
  position : String
  player : String
  status : String
deriving DecidableEq, Repr

/-- Pandas `astype(str)` on one cell: a NaN cell renders as the string
`"nan"`. -/
def cellStr : Option String → String
  | none => "nan"
  | some s => s

/-- The `Pos` value of a row: first cell, `astype(str).str.strip()`
(ourlads.py line 102). -/
def posOfRow (r : List (Option String)) : String :=
  pstrip (cellStr (r.getD 0 none))

/-- The flattened column names of a table. -/
def flattenCols (t : RawTable) : List String :=
  t.header.map flattenCol

/-- Model of `keep_cols` (ourlads.py line 98) as column positions: position 0
(renamed `Pos`) plus every later column whose flattened name matches the
player-column pattern. -/
def keepIndices (t : RawTable) : List Nat :=
  0 :: (((flattenCols t).enum.drop 1).filter (fun p => matchesPlayer p.2)).map (fun p => p.1)

/-- Index of the first row whose upper-cased `Pos` equals `marker`
(`mask[mask].index[0]` for an equality mask on the upper-cased positions). -/
def firstMarkIdx (marker : String) (pos : List String) : Option Nat :=
  pos.findIdx? (fun p => pupper p == marker)

/-- The defensive cleanup predicate of ourlads.py lines 124-125: keep a row
iff its (already stripped) position cell is nonempty after stripping and does
not contain `Offense`, `Defense` or `Special` case-insensitively. -/
def cleanKeep (p : String) : Bool :=
  pstrip p != "" &&
    !(containsCI p "offense".data || containsCI p "defense".data ||
      containsCI p "special".data)

/-- Model of the section slice of ourlads.py lines 104-122 on the stripped
`Pos` column, as indexed rows.  `df.loc[a : b]` on the running integer index
keeps the labels `a ≤ i ≤ b`; when both markers exist the bounds are
`start_idx + 1` and `end_idx - 1` with `end_idx` the index of the first
`DEFENSE` row anywhere in the table, and `end_idx - 1` may be `-1`, hence the
`Int` comparisons. -/
def sliceOffense (pos : List String) : List (Nat × String) :=
  let idxed := pos.enum
  match firstMarkIdx "OFFENSE" pos, firstMarkIdx "DEFENSE" pos with
  | some s, some e =>
    idxed.filter (fun p => decide ((s : Int) + 1 ≤ (p.1 : Int)) && decide ((p.1 : Int) ≤ (e : Int) - 1))
  | some s, none =>
    idxed.filter (fun p => decide ((s : Int) + 1 ≤ (p.1 : Int)) && decide ((p.1 : Int) ≤ (pos.length : Int) - 1))
  | none, some e =>
    idxed.filter (fun p => decide ((p.1 : Int) ≤ (e : Int) - 1))
  | none, none => idxed

/-- The program's section splitter: the slice of ourlads.py lines 104-122
followed by the cleanup of lines 124-125. -/
def cleanOffense (pos : List String) : List (Nat × String) :=
  (sliceOffense pos).filter (fun p => cleanKeep p.2)

/-- The stripped `Pos` column of a table. -/
def posList (t : RawTable) : List String :=
  t.rows.map posOfRow

/-- The offensive block of a table: the rows surviving the section splitter,
with their original integer index. -/
def offenseRows (t : RawTable) : List (Nat × List (Option String)) :=
  let keep := (cleanOffense (posList t)).map (fun p => p.1)
  t.rows.enum.filter (fun p => keep.contains p.1)

/-- The positions of the player columns (every kept column except `Pos`). -/
def playerIdxs (t : RawTable) : List Nat :=
  (keepIndices t).drop 1

/-- Model of the melt of ourlads.py lines 132-135: for each player column in
order, for each offensive row in order, the entry
(stripped `Pos`, 1-based slot index, stripped raw cell); NaN cells and cells
that are empty after stripping are dropped. -/
def longEntries (t : RawTable) : List (String × Nat × String) :=
  ((playerIdxs t).enum.map (fun sj =>
    (offenseRows t).filterMap (fun p =>
      match p.2.getD sj.2 none with
      | none => none
      | some raw =>
        let r := pstrip raw
        if r == "" then none else some (posOfRow p.2, sj.1 + 1, r)))).flatten

/-- Model of ourlads.py lines 139-147: clean the player name, map the
position label and slot to a canonical position code, drop unmapped entries,
attach the team and the `ACT` status. -/
def mappedRecs (team : String) (t : RawTable) : List Record :=
  (longEntries t).filterMap (fun e =>
    match _map_pos e.1 (some (e.2.1 : Int)) with
    | none => none
    | some posCode => some ⟨team, posCode, _clean_name e.2.2, "ACT"⟩)

/-- The deduplication key of ourlads.py line 148: `subset=["position", "player"]`. -/
def ppKey (r : Record) : String × String :=
  (r.position, r.player)

/-- Model of `drop_duplicates(subset=["position", "player"], keep="first")`:
keep a record iff its key was not seen before. -/
def dedupPP : List Record → List (String × String) → List Record
  | [], _ => []
  | r :: rs, seen =>
    if ppKey r ∈ seen then dedupPP rs seen
    else r :: dedupPP rs (ppKey r :: seen)

/-- Model of `ourlads_scrape_team` (ourlads.py lines 72-149) after the fetch:
the argument `fetched` is `none` when the request raised, and otherwise the
list of tables found by `pd.read_html` (an unparseable document yields `[]`,
like `ValueError`).  Every early return of the source is one guard here. -/
def ourlads_scrape_team (team : String) (fetched : Option (List RawTable)) : List Record :=
  match fetched with
  | none => []
  | some [] => []
  | some (t :: _) =>
    if t.rows.isEmpty || t.header.isEmpty then []
    else if (flattenCols t).isEmpty then []
    else if (keepIndices t).length ≤ 1 then []
    else if (offenseRows t).isEmpty then []
    else if (longEntries t).isEmpty then []
    else if (mappedRecs team t).isEmpty then []
    else dedupPP (mappedRecs team t) []

/-- The override file as seen through `pd.read_csv`: header names and string
cell rows (the repository's override files carry plain string cells). -/
structure Csv where
  cols : List String
  rows : List (List String)

/-- The state of the configured override source: `override_path is None`,
the path does not exist on the filesystem, or the loaded table. -/
inductive OverrideSrc where
  | noPath
  | missing
  | present (csv : Csv)

/-- One field of an override row after the column fixup of ourlads.py lines
171-178: the cell under the named column when that column exists, otherwise
the default injected for the whole column (`"ACT"` for `status`, `""` for the
other canonical columns). -/
def csvField (csv : Csv) (r : List String) (name dflt : String) : String :=
  match csv.cols.findIdx? (fun c => c == name) with
  | some j => r.getD j ""
  | none => dflt

/-- The override rows as four-column records, in file order. -/
def csvRecords (csv : Csv) : List Record :=
  csv.rows.map (fun r =>
    ⟨csvField csv r "team" "", csvField csv r "position" "",
     csvField csv r "player" "", csvField csv r "status" "ACT"⟩)

/-- The `(team, position)` keys of the override rows,
`overrides[["team", "position"]].drop_duplicates()` (ourlads.py line 181). -/
def overrideKeys (csv : Csv) : List (String × String) :=
  ((csvRecords csv).map (fun r => (r.team, r.position))).dedup

/-- Model of the override half of `read_starters_ourlads` (ourlads.py lines
165-188) applied to the concatenated aggregate `out`. -/
def mergeOverrides (out : List Record) (ov : OverrideSrc) : List Record :=
  match ov with
  | .noPath => out
  | .missing => out
  | .present csv =>
    if csv.rows.isEmpty || csv.cols.isEmpty then out
    else
      let ovRecs := csvRecords csv
      let filtered :=
        if out.isEmpty then out
        else out.filter (fun r => decide ((r.team, r.position) ∉ overrideKeys csv))
      if filtered.isEmpty then ovRecs else filtered ++ ovRecs

/-- The concatenation of the per-team scrape results in caller order
(ourlads.py lines 156-163). -/
def aggregateScrape (teams : List String) (fetch : String → Option (List RawTable)) : List Record :=
  (teams.map (fun tm => ourlads_scrape_team tm (fetch tm))).flatten

/-- Model of `read_starters_ourlads` (ourlads.py lines 152-188): scrape every
team, concatenate, then apply the override merge. -/
def read_starters_ourlads (teams : List String)
    (fetch : String → Option (List RawTable)) (ov : OverrideSrc) : List Record :=
  mergeOverrides (aggregateScrape teams fetch) ov

/-! ### nflverse.py -/

/-- The default database mount (nflverse.py line 20). -/
def DEFAULT_DATABASE_PATH : String := "/nflverse"

/-- A live DuckDB connection handle, identified by the path it was opened on
and its mode. -/
structure Handle where
  path : String
  read_only : Bool
deriving DecidableEq, Repr

/-- The Python exceptions that can leave `connect`:
`NFLverseConnectionError` (nflverse.py line 23) and the built-in
`ValueError` raised by `_normalise_path`. -/
inductive PyExc where
  | nflverseConnectionError (msg : String)
  | valueError (msg : String)
deriving DecidableEq, Repr

/-- The execution environment of `connect`: whether the `duckdb` import
succeeded, the filesystem oracle `os.path.exists`, the path normaliser
`os.path.abspath(os.path.expanduser ·))`, and the outcome of
`duckdb.connect` (`none` = the underlying open raised). -/
structure NflEnv where
  duckdbAvailable : Bool
  pathExists : String → Bool
  abspathExpand : String → String
  openDb : String → Bool → Option Handle

/-- Model of `_normalise_path` (nflverse.py lines 27-46). -/
def _normalise_path (env : NflEnv) (database_path : Option String) : Except PyExc String :=
  let path := match database_path with
    | none => DEFAULT_DATABASE_PATH
    | some p => p
  if path = "" then
    .error (.valueError "database_path must not be an empty string")
  else if path = ":memory:" then .ok path
  else .ok (env.abspathExpand path)

/-- The message of the missing-dependency error (nflverse.py lines 69-72). -/
def duckdbMissingMsg : String :=
  "The 'duckdb' package is required to connect to the nflverse dataset." ++
    " Install it with `pip install duckdb`."

/-- The message of the missing-database error (nflverse.py lines 77-80). -/
def notFoundMsg (path : String) : String :=
  "The nflverse database was not found at '" ++ path ++ "'. " ++
    "Make sure the dataset is available and the path is correct."

/-- The message of the wrapped open failure (nflverse.py lines 85-87). -/
def openFailedMsg (path : String) : String :=
  "Unable to connect to the nflverse database at '" ++ path ++ "'."

/-- Model of `connect` (nflverse.py lines 49-87). -/
def connect (env : NflEnv) (database_path : Option String) (read_only : Bool) :
    Except PyExc Handle :=
  if !env.duckdbAvailable then
    .error (.nflverseConnectionError duckdbMissingMsg)
  else
    match _normalise_path env database_path with
    | .error e => .error e
    | .ok path =>
      if read_only && path != ":memory:" && !env.pathExists path then
        .error (.nflverseConnectionError (notFoundMsg path))
      else
        match env.openDb path read_only with
        | some h => .ok h
        | none => .error (.nflverseConnectionError (openFailedMsg path))

/-! ### Definitions taken from the specification's words, for comparison with
the code-derived definitions above. -/

/-- The section selection as claim C4 words it: with an `OFFENSE` marker, the
rows strictly between it and the next `DEFENSE` marker after it (or to the
end when no `DEFENSE` marker exists); with only a `DEFENSE` marker, the rows
strictly before it; otherwise the whole table; then the same defensive
cleanup.  This follows the claim's words, to be compared with the program's
`cleanOffense`. -/
def claimedSectionRows (pos : List String) : List (Nat × String) :=
  let idxed := pos.enum
  let base :=
    match firstMarkIdx "OFFENSE" pos with
    | some s =>
      match (idxed.find? (fun (p : Nat × String) => decide (s < p.1) && (pupper p.2 == "DEFENSE"))).map (fun (p : Nat × String) => p.1) with
      | some e => idxed.filter (fun (p : Nat × String) => decide (s < p.1) && decide (p.1 < e))
      | none => idxed.filter (fun (p : Nat × String) => decide (s < p.1))
    | none =>
      match firstMarkIdx "DEFENSE" pos with
      | some e => idxed.filter (fun (p : Nat × String) => decide (p.1 < e))
      | none => idxed
  base.filter (fun p => cleanKeep p.2)

/-- The amended section selection: as claim C4 but with the block ending at
the first `DEFENSE` marker anywhere in the table, which may precede the
`OFFENSE` marker and then empties the selection. -/
def amendedSectionRows (pos : List String) : List (Nat × String) :=
  let idxed := pos.enum
  let base :=
    match firstMarkIdx "OFFENSE" pos, firstMarkIdx "DEFENSE" pos with
    | some s, some e => idxed.filter (fun (p : Nat × String) => decide (s < p.1) && decide (p.1 < e))
    | some s, none => idxed.filter (fun (p : Nat × String) => decide (s < p.1))
    | none, some e => idxed.filter (fun (p : Nat × String) => decide (p.1 < e))
    | none, none => idxed
  base.filter (fun p => cleanKeep p.2)

/-! ### Concrete tables used by claims -/

/-- The worked sample of the specification: team `buf`, depth rows QB, RB,
WR, SWR with three player columns. -/
def sampleTable : RawTable :=
  { header := [.flat "Pos", .flat "Player 1", .flat "Player 2", .flat "Player 3"]
    rows :=
      [[some "QB", some "Allen, Josh 26S", none, none],
       [some "RB", some "Cook, James", some "Murray, Latavius 28", none],
       [some "WR", some "Diggs, Stefon 26S", some "Davis, Gabriel", some "Shakir, Khalil"],
       [some "SWR", some "Beasley, Cole", none, none]] }

/-- A table whose two rows both carry the position label `WR`: both map to
the canonical code `WR1` with different players. -/
def dupPosTable : RawTable :=
  { header := [.flat "Pos", .flat "Player 1"]
    rows := [[some "WR", some "Smith, A"], [some "WR", some "Jones, B"]] }

/-- A table whose offensive block is empty: only marker rows. -/
def markersOnlyTable : RawTable :=
  { header := [.flat "Pos", .flat "Player 1"]
    rows := [[some "Offense", none], [some "Defense", some "Smith, A"]] }

/-- A table without any player-pattern column. -/
def noPlayerColsTable : RawTable :=
  { header := [.flat "Pos", .flat "College"]
    rows := [[some "QB", some "Iowa"]] }

/-- A table whose only position label maps to no canonical code. -/
def noMappableTable : RawTable :=
  { header := [.flat "Pos", .flat "Player 1"]
    rows := [[some "LT", some "Smith, A"]] }

/-- A table with player columns but only NaN player cells. -/
def emptyCellsTable : RawTable :=
  { header := [.flat "Pos", .flat "Player 1"]
    rows := [[some "QB", none]] }

/-! ### nflverse auxiliary definitions -/

/-- The string `pat` occurs as a contiguous substring of `s`. -/
def substrOf (pat s : String) : Prop :=
  pat.data <:+: s.data

/-- Whether a `connect` outcome is a raised `NFLverseConnectionError`. -/
def isConnErr : Except PyExc Handle → Bool
  | .error (.nflverseConnectionError _) => true
  | _ => false

/-- A plain environment: `duckdb` importable, nothing on disk, path
normalisation the identity, opening always succeeds. -/
def envPlain : NflEnv :=
  { duckdbAvailable := true
    pathExists := fun _ => false
    abspathExpand := fun p => p
    openDb := fun p ro => some ⟨p, ro⟩ }

/-- An environment in which the `duckdb` import failed. -/
def envNoDuckdb : NflEnv :=
  { duckdbAvailable := false
    pathExists := fun _ => false
    abspathExpand := fun p => p
    openDb := fun _ _ => none }

/-- An environment in which the database file exists but opening it fails. -/
def envOpenFail : NflEnv :=
  { duckdbAvailable := true
    pathExists := fun _ => true
    abspathExpand := fun p => p
    openDb := fun _ _ => none }

/-- A table with rows but no header entry (and hence no cells). -/
def rowlessTable : RawTable :=
  { header := [.flat "Pos", .flat "Player 1"], rows := [] }

/-- The override file of the specification's precedence scenario. -/
def overrideCsv : Csv :=
  { cols := ["team", "position", "player"]
    rows := [["buf", "WR1", "Override Receiver"]] }

/-! ### Helper lemmas -/

theorem mem_dedupPP_not_seen {r : Record} :
    ∀ {l : List Record} {seen : List (String × String)},
      r ∈ dedupPP l seen → ppKey r ∉ seen := by
  intro l
  induction l with
  | nil => intro seen h; simp [dedupPP] at h
  | cons a as ih =>
    intro seen h
    by_cases hs : ppKey a ∈ seen
    · rw [dedupPP, if_pos hs] at h
      exact ih h
    · rw [dedupPP, if_neg hs] at h
      rcases List.mem_cons.mp h with h1 | h2
      · rw [h1]; exact hs
      · intro hr
        exact ih h2 (List.mem_cons_of_mem _ hr)

theorem dedupPP_pairwise :
    ∀ (l : List Record) (seen : List (String × String)),
      (dedupPP l seen).Pairwise (fun a b => ppKey a ≠ ppKey b) := by
  intro l
  induction l with
  | nil => intro seen; simp [dedupPP]
  | cons a as ih =>
    intro seen
    by_cases hs : ppKey a ∈ seen
    · rw [dedupPP, if_pos hs]; exact ih seen
    · rw [dedupPP, if_neg hs]
      refine List.pairwise_cons.mpr ⟨?_, ih _⟩
      intro b hb heq
      exact mem_dedupPP_not_seen hb (by rw [← heq]; exact List.mem_cons_self _ _)

theorem dedupPP_find? :
    ∀ (l : List Record) (seen : List (String × String)) (k : String × String),
      k ∉ seen →
      (dedupPP l seen).find? (fun r => decide (ppKey r = k)) =
        l.find? (fun r => decide (ppKey r = k)) := by
  intro l
  induction l with
  | nil => intro seen k _; simp [dedupPP]
  | cons a as ih =>
    intro seen k hk
    by_cases hs : ppKey a ∈ seen
    · rw [dedupPP, if_pos hs, List.find?_cons]
      have hne : ppKey a ≠ k := fun e => hk (e ▸ hs)
      rw [decide_eq_false hne]
      exact ih seen k hk
    · rw [dedupPP, if_neg hs, List.find?_cons, List.find?_cons]
      by_cases he : ppKey a = k
      · rw [decide_eq_true he]
      · rw [decide_eq_false he]
        exact ih _ k (by
          intro h
          rcases List.mem_cons.mp h with h1 | h2
          · exact he h1.symm
          · exact hk h2)

theorem offenseRows_of_rows_nil {t : RawTable} (h : t.rows = []) : offenseRows t = [] := by
  simp [offenseRows, h]

theorem playerIdxs_of_short {t : RawTable} (h : (keepIndices t).length ≤ 1) :
    playerIdxs t = [] := by
  unfold playerIdxs
  unfold keepIndices at h ⊢
  simp only [List.length_cons] at h
  rw [List.drop_one, List.tail_cons]
  exact List.eq_nil_of_length_eq_zero (by omega)

theorem longEntries_of_playerIdxs_nil {t : RawTable} (h : playerIdxs t = []) :
    longEntries t = [] := by
  simp [longEntries, h]

theorem longEntries_of_offense_nil {t : RawTable} (h : offenseRows t = []) :
    longEntries t = [] := by
  simp [longEntries, h]

theorem mappedRecs_of_long_nil {team : String} {t : RawTable} (h : longEntries t = []) :
    mappedRecs team t = [] := by
  simp [mappedRecs, h]

theorem keepIndices_of_header_nil {t : RawTable} (h : t.header = []) :
    (keepIndices t).length ≤ 1 := by
  simp [keepIndices, flattenCols, h]

/-- Every early return of `ourlads_scrape_team` has an empty mapped record
list, so the scrape is the deduplication of the mapped records outright. -/
theorem scrape_eq_dedupPP (team : String) (t : RawTable) (rest : List RawTable) :
    ourlads_scrape_team team (some (t :: rest)) = dedupPP (mappedRecs team t) [] := by
  have hmt : ∀ _ : mappedRecs team t = [], ([] : List Record) = dedupPP (mappedRecs team t) [] := by
    intro h; rw [h]; rfl
  simp only [ourlads_scrape_team]
  split_ifs with h1 h2 h3 h4 h5 h6
  · rcases Bool.or_eq_true_iff.mp h1 with hr | hh
    · exact hmt (mappedRecs_of_long_nil (longEntries_of_offense_nil
        (offenseRows_of_rows_nil (List.isEmpty_iff.mp hr))))
    · exact hmt (mappedRecs_of_long_nil (longEntries_of_playerIdxs_nil
        (playerIdxs_of_short (keepIndices_of_header_nil (List.isEmpty_iff.mp hh)))))
  · have hh : t.header = [] := by
      have := List.isEmpty_iff.mp h2
      unfold flattenCols at this
      exact List.map_eq_nil_iff.mp this
    exact hmt (mappedRecs_of_long_nil (longEntries_of_playerIdxs_nil
      (playerIdxs_of_short (keepIndices_of_header_nil hh))))
  · exact hmt (mappedRecs_of_long_nil (longEntries_of_playerIdxs_nil (playerIdxs_of_short h3)))
  · exact hmt (mappedRecs_of_long_nil (longEntries_of_offense_nil (List.isEmpty_iff.mp h4)))
  · exact hmt (mappedRecs_of_long_nil (List.isEmpty_iff.mp h5))
  · exact hmt (List.isEmpty_iff.mp h6)
  · rfl

theorem fst_lt_of_mem_enum {α : Type} {x : Nat × α} {l : List α} (h : x ∈ l.enum) :
    x.1 < l.length := by
  have := List.mem_enum_iff_getElem?.mp h
  exact (List.getElem?_eq_some.mp this).1

theorem overrideKeys_mem_iff (csv : Csv) (k : String × String) :
    k ∈ overrideKeys csv ↔ ∃ q ∈ csvRecords csv, (q.team, q.position) = k := by
  unfold overrideKeys
  rw [List.mem_dedup, List.mem_map]

theorem mergeOverrides_present (out : List Record) (csv : Csv)
    (h1 : csv.rows ≠ []) (h2 : csv.cols ≠ []) :
    mergeOverrides out (.present csv) =
      out.filter (fun r => decide (∀ q ∈ csvRecords csv, (r.team, r.position) ≠ (q.team, q.position)))
        ++ csvRecords csv := by
  simp only [mergeOverrides]
  rw [if_neg (by simp [h1, h2])]
  have hfc : out.filter (fun r => decide ((r.team, r.position) ∉ overrideKeys csv))
      = out.filter (fun r => decide (∀ q ∈ csvRecords csv, (r.team, r.position) ≠ (q.team, q.position))) := by
    refine List.filter_congr ?_
    intro r _
    refine Bool.eq_iff_iff.mpr ?_
    simp only [decide_eq_true_eq, overrideKeys_mem_iff, not_exists]
    constructor
    · intro h q hq e
      exact h q ⟨hq, e.symm⟩
    · rintro h q ⟨hq, e⟩
      exact h q hq e.symm
  by_cases hout : out.isEmpty
  · have : out = [] := List.isEmpty_iff.mp hout
    subst this
    simp
  · simp only [if_neg hout, hfc]
    by_cases hfe : (out.filter (fun r => decide (∀ q ∈ csvRecords csv, (r.team, r.position) ≠ (q.team, q.position)))).isEmpty
    · rw [if_pos hfe, List.isEmpty_iff.mp hfe, List.nil_append]
    · rw [if_neg hfe]

theorem csvField_status_default (csv : Csv) (hs : "status" ∉ csv.cols)
    (r : List String) : csvField csv r "status" "ACT" = "ACT" := by
  unfold csvField
  rw [List.findIdx?_eq_none_iff.mpr]
  intro x hx
  exact beq_eq_false_iff_ne.mpr (fun e => hs (e ▸ hx))

theorem substrOf_mid (a p b : String) : substrOf p (a ++ p ++ b) := by
  unfold substrOf
  simp only [String.data_append]
  exact List.infix_append _ _ _

/-! ### Claim theorems -/

/-- C1: for the worked sample, `ourlads_scrape_team` applied to team `buf`
with offensive rows QB: `Allen, Josh 26S`; RB: `Cook, James`,
`Murray, Latavius 28`; WR: `Diggs, Stefon 26S`, `Davis, Gabriel`,
`Shakir, Khalil`; SWR: `Beasley, Cole` yields exactly the seven records
(buf,QB,Josh Allen,ACT), (buf,RB1,James Cook,ACT),
(buf,RB2,Latavius Murray,ACT), (buf,WR1,Stefon Diggs,ACT),
(buf,WR2,Gabriel Davis,ACT), (buf,WR3,Khalil Shakir,ACT),
(buf,SLOT,Cole Beasley,ACT), as a permutation (the frame's row order is the
melt order QB, RB1, WR1, SLOT, RB2, WR2, WR3). -/
theorem scrape_worked_sample_buf :
    (ourlads_scrape_team "buf" (some [sampleTable])).Perm
      [⟨"buf", "QB", "Josh Allen", "ACT"⟩,
       ⟨"buf", "RB1", "James Cook", "ACT"⟩,
       ⟨"buf", "RB2", "Latavius Murray", "ACT"⟩,
       ⟨"buf", "WR1", "Stefon Diggs", "ACT"⟩,
       ⟨"buf", "WR2", "Gabriel Davis", "ACT"⟩,
       ⟨"buf", "WR3", "Khalil Shakir", "ACT"⟩,
       ⟨"buf", "SLOT", "Cole Beasley", "ACT"⟩] := by decide

/-- C2: for every aggregate of scraped records and every non-empty override
table loaded from an existing override path, `read_starters_ourlads` keeps
exactly the scraped rows whose `(team, position)` key matches no override
row's key (in their original order) and appends all override rows in file
order; an override row whose file lacks a `status` column gets status
`ACT`. -/
theorem read_starters_override_precedence (teams : List String)
    (fetch : String → Option (List RawTable)) (csv : Csv)
    (h1 : csv.rows ≠ []) (h2 : csv.cols ≠ []) :
    read_starters_ourlads teams fetch (.present csv)
      = (aggregateScrape teams fetch).filter
          (fun r => decide (∀ q ∈ csvRecords csv, (r.team, r.position) ≠ (q.team, q.position)))
        ++ csvRecords csv
    ∧ ("status" ∉ csv.cols → ∀ r ∈ csvRecords csv, r.status = "ACT") := by
  refine ⟨mergeOverrides_present _ csv h1 h2, ?_⟩
  intro hs r hr
  unfold csvRecords at hr
  obtain ⟨row, _, hrow⟩ := List.mem_map.mp hr
  rw [← hrow]
  exact csvField_status_default csv hs row

/-- Witness for C2: the specification's precedence scenario, one scraped
`buf` table and one override row (buf, WR1, Override Receiver). -/
theorem read_starters_override_precedence_witness :
    read_starters_ourlads ["buf"] (fun _ => some [sampleTable]) (.present overrideCsv)
      = (aggregateScrape ["buf"] (fun _ => some [sampleTable])).filter
          (fun r => decide (∀ q ∈ csvRecords overrideCsv, (r.team, r.position) ≠ (q.team, q.position)))
        ++ csvRecords overrideCsv
    ∧ ("status" ∉ overrideCsv.cols → ∀ r ∈ csvRecords overrideCsv, r.status = "ACT") :=
  read_starters_override_precedence ["buf"] (fun _ => some [sampleTable]) overrideCsv
    (by decide) (by decide)

/-- C3 counterexample: a table with two rows both labelled `WR` yields two
records with the same `(team, position)` pair `(buf, WR1)`, because the
deduplication key is `(position, player)`, not `(team, position)`. -/
theorem scrape_team_position_unique_cex :
    ¬ (ourlads_scrape_team "buf" (some [dupPosTable])).Pairwise
        (fun a b => (a.team, a.position) ≠ (b.team, b.position)) := by decide

/-- C3 (amended): within one team's scrape output the `(position, player)`
pairs are unique, and deduplication prefers the first encountered record:
looking up a key in the output finds the same record as looking it up in the
pre-deduplication mapped list. -/
theorem scrape_dedup_position_player :
    (∀ (team : String) (fetched : Option (List RawTable)),
        (ourlads_scrape_team team fetched).Pairwise (fun a b => ppKey a ≠ ppKey b))
    ∧ ∀ (team : String) (t : RawTable) (rest : List RawTable) (k : String × String),
        (ourlads_scrape_team team (some (t :: rest))).find? (fun r => decide (ppKey r = k))
          = (mappedRecs team t).find? (fun r => decide (ppKey r = k)) := by
  constructor
  · intro team fetched
    match fetched with
    | none => exact List.Pairwise.nil
    | some [] => exact List.Pairwise.nil
    | some (t :: rest) =>
      rw [scrape_eq_dedupPP]
      exact dedupPP_pairwise _ _
  · intro team t rest k
    rw [scrape_eq_dedupPP]
    exact dedupPP_find? _ _ k (List.not_mem_nil k)

/-- C4 counterexample: on the position column `[DEFENSE, OFFENSE, QB]` the
program's splitter selects nothing (the slice ends at the first `DEFENSE`
row anywhere, here before the `OFFENSE` row), while the claim's selection —
strictly between `OFFENSE` and the next `DEFENSE` after it, or to the end
when there is none after it — keeps the `QB` row. -/
theorem section_splitter_next_defense_cex :
    cleanOffense ["DEFENSE", "OFFENSE", "QB"] ≠ claimedSectionRows ["DEFENSE", "OFFENSE", "QB"]
    ∧ cleanOffense ["DEFENSE", "OFFENSE", "QB"] = []
    ∧ claimedSectionRows ["DEFENSE", "OFFENSE", "QB"] = [(2, "QB")] := by decide

/-- C4 (amended): the section splitter selects, when an `OFFENSE` marker
exists, the rows strictly between it and the first `DEFENSE` marker anywhere
in the table (which may precede the `OFFENSE` marker, emptying the
selection), or to the end when no `DEFENSE` marker exists; without an
`OFFENSE` marker but with a `DEFENSE` marker, the rows strictly before it;
with neither, the whole table; afterwards rows whose position cell is empty
after trimming or still contains `Offense`, `Defense` or `Special`
(case-insensitively) are dropped. -/
theorem section_splitter_first_defense (pos : List String) :
    cleanOffense pos = amendedSectionRows pos := by
  unfold cleanOffense amendedSectionRows sliceOffense
  cases ho : firstMarkIdx "OFFENSE" pos with
  | none =>
    cases hd : firstMarkIdx "DEFENSE" pos with
    | none => rfl
    | some e =>
      simp only
      refine congrArg _ (List.filter_congr ?_)
      intro x _
      refine Bool.eq_iff_iff.mpr ?_
      simp only [decide_eq_true_eq]
      omega
  | some s =>
    cases hd : firstMarkIdx "DEFENSE" pos with
    | none =>
      simp only
      refine congrArg _ (List.filter_congr ?_)
      intro x hx
      have hlt : x.1 < pos.length := fst_lt_of_mem_enum hx
      refine Bool.eq_iff_iff.mpr ?_
      simp only [Bool.and_eq_true, decide_eq_true_eq]
      omega
    | some e =>
      simp only
      refine congrArg _ (List.filter_congr ?_)
      intro x _
      refine Bool.eq_iff_iff.mpr ?_
      simp only [Bool.and_eq_true, decide_eq_true_eq]
      omega

/-- C5: the position-slot mapper is a function of the upper-cased label and
the slot index: QB and FB map to themselves at every 1-based slot; RB maps to
RB1 at slot 1 and RB2 at every slot 2 or higher; TE to TE1 at slot 1 and TE2
otherwise; WR, LWR and RWR to WR1..WR5 at slots 1..5 and to nothing from
slot 6 on; SWR, WR-SLOT and SLOT to SLOT at slot 1 only; every other label
maps to nothing. -/
theorem map_pos_slot_mapping (l : String) :
    (∀ i : Int, 1 ≤ i → (pupper l = "QB" ∨ pupper l = "FB") → _map_pos l (some i) = some (pupper l))
    ∧ (pupper l = "RB" → _map_pos l (some 1) = some "RB1"
        ∧ ∀ i : Int, 2 ≤ i → _map_pos l (some i) = some "RB2")
    ∧ (pupper l = "TE" → _map_pos l (some 1) = some "TE1"
        ∧ ∀ i : Int, 1 ≤ i → i ≠ 1 → _map_pos l (some i) = some "TE2")
    ∧ ((pupper l = "WR" ∨ pupper l = "LWR" ∨ pupper l = "RWR") →
        _map_pos l (some 1) = some "WR1" ∧ _map_pos l (some 2) = some "WR2"
        ∧ _map_pos l (some 3) = some "WR3" ∧ _map_pos l (some 4) = some "WR4"
        ∧ _map_pos l (some 5) = some "WR5" ∧ ∀ i : Int, 6 ≤ i → _map_pos l (some i) = none)
    ∧ ((pupper l = "SWR" ∨ pupper l = "WR-SLOT" ∨ pupper l = "SLOT") →
        _map_pos l (some 1) = some "SLOT"
        ∧ ∀ i : Int, 1 ≤ i → i ≠ 1 → _map_pos l (some i) = none)
    ∧ (pupper l ∉ (["QB", "RB", "FB", "TE", "WR", "LWR", "RWR", "SWR", "WR-SLOT", "SLOT"] : List String) →
        ∀ i : Int, _map_pos l (some i) = none) := by
  refine ⟨?_, ?_, ?_, ?_, ?_, ?_⟩
  · rintro i hi (h | h) <;> simp +decide [_map_pos, h]
  · intro h
    constructor
    · simp +decide [_map_pos, h]
    · intro i hi
      simp +decide [_map_pos, h]
      omega
  · intro h
    constructor
    · simp +decide [_map_pos, h]
    · intro i _ hi
      simp +decide [_map_pos, h, hi]
  · rintro (h | h | h) <;>
      refine ⟨?_, ?_, ?_, ?_, ?_, ?_⟩ <;>
      (simp +decide [_map_pos, h]; try (intro i h6 h1 h5; omega))
  · rintro (h | h | h) <;> refine ⟨?_, ?_⟩ <;> simp +decide [_map_pos, h]
  · intro h i
    simp only [List.mem_cons, List.mem_singleton] at h
    push_neg at h
    obtain ⟨h1, h2, h3, h4, h5, h6, h7, h8, h9, h10⟩ := h
    simp [_map_pos, h1, h2, h3, h4, h5, h6, h7, h8, h9, h10]

/-- Witness for C5: the mapper evaluated at representative labels and
slots. -/
theorem map_pos_slot_mapping_witness :
    _map_pos "RB" (some 1) = some "RB1" ∧ _map_pos "RB" (some 2) = some "RB2"
    ∧ _map_pos "qb" (some 4) = some "QB" ∧ _map_pos "WR" (some 6) = none
    ∧ _map_pos "SWR" (some 2) = none ∧ _map_pos "C" (some 1) = none :=
  ⟨((map_pos_slot_mapping "RB").2.1 (by decide)).1,
   ((map_pos_slot_mapping "RB").2.1 (by decide)).2 2 (by decide),
   (map_pos_slot_mapping "qb").1 4 (by decide) (Or.inl (by decide)),
   ((map_pos_slot_mapping "WR").2.2.2.1 (Or.inl (by decide))).2.2.2.2.2 6 (by decide),
   ((map_pos_slot_mapping "SWR").2.2.2.2.1 (Or.inl (by decide))).2 2 (by decide) (by decide),
   (map_pos_slot_mapping "C").2.2.2.2.2 (by decide) 1⟩

/-- C6 counterexample: name cleaning is not idempotent for every input
string: `_clean_name "1(x)" = "1"` (the parenthetical is removed after the
trailing-number pass already ran), and a second pass strips the now-trailing
digit, giving `""`. -/
theorem clean_name_idempotent_cex :
    _clean_name (_clean_name "1(x)") ≠ _clean_name "1(x)"
    ∧ _clean_name "1(x)" = "1" ∧ _clean_name "1" = "" := by decide

/-- C6 (amended): name cleaning maps the worked examples as stated —
`Allen, Josh 26S` to `Josh Allen` and `Cook, James` to `James Cook` — and is
idempotent on them: both outputs are fixed points of `_clean_name`. -/
theorem clean_name_worked_examples :
    _clean_name "Allen, Josh 26S" = "Josh Allen"
    ∧ _clean_name "Cook, James" = "James Cook"
    ∧ _clean_name (_clean_name "Allen, Josh 26S") = _clean_name "Allen, Josh 26S"
    ∧ _clean_name (_clean_name "Cook, James") = _clean_name "Cook, James" := by decide

/-- C7: `ourlads_scrape_team` never raises for an expected failure mode and
returns the canonical empty result (the zero-row four-column frame, here the
empty record list) under each such condition: request failure, no parsed
table, a table without rows, no matching player columns, an empty offensive
section, no surviving melt entries, no mappable positions.  Totality itself
is by construction of the embedding. -/
theorem scrape_total_on_failure (team : String) :
    ourlads_scrape_team team none = []
    ∧ ourlads_scrape_team team (some []) = []
    ∧ ∀ (t : RawTable) (rest : List RawTable),
        (t.rows = [] → ourlads_scrape_team team (some (t :: rest)) = [])
        ∧ ((keepIndices t).length ≤ 1 → ourlads_scrape_team team (some (t :: rest)) = [])
        ∧ (offenseRows t = [] → ourlads_scrape_team team (some (t :: rest)) = [])
        ∧ (longEntries t = [] → ourlads_scrape_team team (some (t :: rest)) = [])
        ∧ (mappedRecs team t = [] → ourlads_scrape_team team (some (t :: rest)) = []) := by
  refine ⟨rfl, rfl, fun t rest => ⟨?_, ?_, ?_, ?_, ?_⟩⟩ <;> intro h <;>
    rw [scrape_eq_dedupPP]
  · rw [mappedRecs_of_long_nil (longEntries_of_offense_nil (offenseRows_of_rows_nil h))]; rfl
  · rw [mappedRecs_of_long_nil (longEntries_of_playerIdxs_nil (playerIdxs_of_short h))]; rfl
  · rw [mappedRecs_of_long_nil (longEntries_of_offense_nil h)]; rfl
  · rw [mappedRecs_of_long_nil h]; rfl
  · rw [h]; rfl

/-- Witness for C7: one concrete table per failure condition — no rows, no
player columns, marker rows only, NaN-only player cells, an unmappable
position label — each scraping to the empty result. -/
theorem scrape_total_on_failure_witness :
    ourlads_scrape_team "buf" (some [rowlessTable]) = []
    ∧ ourlads_scrape_team "buf" (some [noPlayerColsTable]) = []
    ∧ ourlads_scrape_team "buf" (some [markersOnlyTable]) = []
    ∧ ourlads_scrape_team "buf" (some [emptyCellsTable]) = []
    ∧ ourlads_scrape_team "buf" (some [noMappableTable]) = [] :=
  ⟨((scrape_total_on_failure "buf").2.2 rowlessTable []).1 rfl,
   ((scrape_total_on_failure "buf").2.2 noPlayerColsTable []).2.1 (by decide),
   ((scrape_total_on_failure "buf").2.2 markersOnlyTable []).2.2.1 (by decide),
   ((scrape_total_on_failure "buf").2.2 emptyCellsTable []).2.2.2.1 (by decide),
   ((scrape_total_on_failure "buf").2.2 noMappableTable []).2.2.2.2 (by decide)⟩

/-- C8: `read_starters_ourlads` returns the concatenated aggregate
unmodified in both no-op override cases: the configured override path does
not exist on the filesystem, and the override file exists but loads as an
empty table. -/
theorem read_starters_override_noop (teams : List String)
    (fetch : String → Option (List RawTable)) :
    read_starters_ourlads teams fetch .missing = aggregateScrape teams fetch
    ∧ ∀ csv : Csv, csv.rows = [] ∨ csv.cols = [] →
        read_starters_ourlads teams fetch (.present csv) = aggregateScrape teams fetch := by
  constructor
  · rfl
  · intro csv h
    unfold read_starters_ourlads
    simp only [mergeOverrides]
    rcases h with h | h <;> simp [h]

/-- Witness for C8: a missing override path and an existing but row-less
override file both leave the aggregate of one failed fetch unchanged. -/
theorem read_starters_override_noop_witness :
    read_starters_ourlads ["buf"] (fun _ => none) .missing
      = aggregateScrape ["buf"] (fun _ => none)
    ∧ read_starters_ourlads ["buf"] (fun _ => none) (.present ⟨["team", "position"], []⟩)
      = aggregateScrape ["buf"] (fun _ => none) :=
  ⟨(read_starters_override_noop ["buf"] (fun _ => none)).1,
   (read_starters_override_noop ["buf"] (fun _ => none)).2
     ⟨["team", "position"], []⟩ (Or.inl rfl)⟩

/-- C9 counterexample: `connect` called with an empty database path raises
the built-in `ValueError` from `_normalise_path`, not
`NFLverseConnectionError`, so not every failure condition raises the single
connection-error kind. -/
theorem connect_empty_path_value_error_cex :
    connect envPlain (some "") true
      = .error (.valueError "database_path must not be an empty string")
    ∧ isConnErr (connect envPlain (some "") true) = false := ⟨rfl, rfl⟩

set_option maxRecDepth 8000 in
/-- C9 (amended): the missing-dependency, missing read-only target and
underlying open-failure conditions of `connect` raise
`NFLverseConnectionError` with a message naming the offending path or a
remediation step; an empty database path instead raises `ValueError` from
`_normalise_path`. -/
theorem connect_failure_kinds (env : NflEnv) (p : Option String) (ro : Bool) :
    (env.duckdbAvailable = false →
        connect env p ro = .error (.nflverseConnectionError duckdbMissingMsg))
    ∧ substrOf "pip install duckdb" duckdbMissingMsg
    ∧ (env.duckdbAvailable = true →
        connect env (some "") ro = .error (.valueError "database_path must not be an empty string"))
    ∧ ∀ path : String, env.duckdbAvailable = true → _normalise_path env p = .ok path →
        ((ro = true → path ≠ ":memory:" → env.pathExists path = false →
          connect env p ro = .error (.nflverseConnectionError (notFoundMsg path))
          ∧ substrOf path (notFoundMsg path))
        ∧ ((ro && path != ":memory:" && !env.pathExists path) = false →
          env.openDb path ro = none →
          connect env p ro = .error (.nflverseConnectionError (openFailedMsg path))
          ∧ substrOf path (openFailedMsg path))) := by
  refine ⟨?_, ?_, ?_, ?_⟩
  · intro h
    unfold connect
    rw [h]
    rfl
  · unfold substrOf duckdbMissingMsg
    decide
  · intro h
    unfold connect _normalise_path
    simp [h]
  · intro path hdb hnorm
    constructor
    · intro hro hmem hex
      constructor
      · unfold connect
        rw [hdb, hnorm]
        simp only [Bool.not_true, Bool.false_eq_true, if_false]
        rw [if_pos (by simp [hro, hex, bne_iff_ne, hmem])]
      · unfold notFoundMsg
        rw [String.append_assoc]
        exact substrOf_mid _ _ _
    · intro hguard hopen
      constructor
      · unfold connect
        rw [hdb, hnorm]
        simp only [Bool.not_true, Bool.false_eq_true, if_false]
        rw [if_neg (by simp [hguard]), hopen]
      · unfold openFailedMsg
        exact substrOf_mid _ _ _

/-- Witness for C9: each of the three `NFLverseConnectionError` conditions
instantiated in a concrete environment, with the path or remediation named in
the message. -/
theorem connect_failure_kinds_witness :
    connect envNoDuckdb none true = .error (.nflverseConnectionError duckdbMissingMsg)
    ∧ connect envPlain (some "") true
      = .error (.valueError "database_path must not be an empty string")
    ∧ (connect envPlain (some "/nflverse") true
        = .error (.nflverseConnectionError (notFoundMsg "/nflverse"))
       ∧ substrOf "/nflverse" (notFoundMsg "/nflverse"))
    ∧ (connect envOpenFail (some "/nflverse") true
        = .error (.nflverseConnectionError (openFailedMsg "/nflverse"))
       ∧ substrOf "/nflverse" (openFailedMsg "/nflverse")) :=
  ⟨(connect_failure_kinds envNoDuckdb none true).1 rfl,
   (connect_failure_kinds envPlain (some "") true).2.2.1 rfl,
   ((connect_failure_kinds envPlain (some "/nflverse") true).2.2.2 "/nflverse" rfl rfl).1
     rfl (by decide) rfl,
   ((connect_failure_kinds envOpenFail (some "/nflverse") true).2.2.2 "/nflverse" rfl rfl).2
     (by decide) rfl⟩

/-- C10: calling `connect` with database path `:memory:` bypasses both
absolute-path normalisation and the on-disk existence check: the path is
passed through unchanged, and even with `read_only` the outcome depends only
on the `duckdb` import and the underlying open — never on
`os.path.exists`. -/
theorem connect_memory_bypass (env : NflEnv) (ro : Bool) :
    _normalise_path env (some ":memory:") = .ok ":memory:"
    ∧ connect env (some ":memory:") ro =
        (if env.duckdbAvailable then
           match env.openDb ":memory:" ro with
           | some h => .ok h
           | none => .error (.nflverseConnectionError (openFailedMsg ":memory:"))
         else .error (.nflverseConnectionError duckdbMissingMsg)) := by
  constructor
  · rfl
  · unfold connect _normalise_path
    cases hdb : env.duckdbAvailable <;> simp [hdb]

end PyBaseball
